import Mathlib

/-
Verification of the CourseRegistry package (courseregistry.go).

The Go program keeps an in-memory registry `map[uint64]Student` where each
`Student` has a numeric ID, a name and a `[]string` of course names, and
exposes AddStudent / EnrollCourse / RemoveCourse / ListStudents /
CoursesCount.  We embed the data model and each operation as pure Lean
functions: the Go map becomes an association list with unique keys, a Go
nil slice is distinguished from an empty one by `Option (List String)`,
and each mutating method returns the updated registry together with an
optional error (Go returns `error`; `none` models a nil error).
-/

namespace CourseRegistry

/-- `Student` struct: `ID uint64`, `Name string`, `Courses []string`.
`Courses = none` models a Go nil slice, `some l` a non-nil slice
(Go ranges over and appends to a nil slice exactly as over an empty one). -/
structure Student where
  ID : Nat
  Name : String
  Courses : Option (List String)
deriving DecidableEq

/-- The Go nil-slice semantics of reading `student.Courses`:
a nil slice behaves as the empty list. -/
def goCourses (s : Student) : List String :=
  s.Courses.getD []

/-- `Registry` struct: `Students map[uint64]Student`, embedded as an
association list (every reachable registry has unique keys, so
`List.lookup` coincides with the Go map read). -/
structure Registry where
  Students : List (Nat × Student)
deriving DecidableEq

/-- `NewRegistry` creates the empty registry. -/
def NewRegistry : Registry := ⟨[]⟩

/-- The distinct failure causes of the three mutating operations
(the spec's names for the Go error values built with `errors.New`). -/
inductive RegError where
  | duplicateID
  | emptyName
  | studentNotFound
  | emptyCourseName
  | alreadyEnrolled
  | courseNotFound
deriving DecidableEq

/-- The Go error strings each error kind is reported with. -/
def RegError.message : RegError → String
  | .duplicateID => "student ID already exists"
  | .emptyName => "student name cannot be empty"
  | .studentNotFound => "student does not exist"
  | .emptyCourseName => "course name cannot be empty"
  | .alreadyEnrolled => "student is already enrolled in this course"
  | .courseNotFound => "course not found for this student"

/-- Go map write `m[id] = s` when `id` is already a key of the
association list: replace the stored value at that key. -/
def setStudent (l : List (Nat × Student)) (id : Nat) (s : Student) :
    List (Nat × Student) :=
  l.map fun p => if p.1 = id then (id, s) else p

/-- `AddStudent`: reject a duplicate ID, then an empty name; otherwise
normalize a nil course slice to empty and store the student.  Returns the
registry after the call and the error (none on success). -/
def AddStudent (r : Registry) (student : Student) : Registry × Option RegError :=
  if (r.Students.lookup student.ID).isSome then
    (r, some .duplicateID)
  else if student.Name = "" then
    (r, some .emptyName)
  else
    (⟨r.Students ++ [(student.ID, { student with Courses := some (goCourses student) })]⟩,
     none)

/-- `EnrollCourse`: look the student up, reject an empty course name, then
an already-present course; otherwise append the course and store back. -/
def EnrollCourse (r : Registry) (studentID : Nat) (course : String) :
    Registry × Option RegError :=
  match r.Students.lookup studentID with
  | none => (r, some .studentNotFound)
  | some student =>
    if course = "" then
      (r, some .emptyCourseName)
    else if (goCourses student).contains course then
      (r, some .alreadyEnrolled)
    else
      (⟨setStudent r.Students studentID
          { student with Courses := some (goCourses student ++ [course]) }⟩,
       none)

/-- The Go loop of `RemoveCourse`: one pass over the course list that
drops every entry equal to `course`, keeps the others in their original
order, and reports whether any entry matched. -/
def removeCourseLoop (courses : List String) (course : String) :
    Bool × List String :=
  match courses with
  | [] => (false, [])
  | c :: rest =>
    let (found, ns) := removeCourseLoop rest course
    if c = course then (true, ns) else (found, c :: ns)

/-- `RemoveCourse`: look the student up, rebuild the course list without
the matching entries, fail if nothing matched, otherwise store back. -/
def RemoveCourse (r : Registry) (studentID : Nat) (course : String) :
    Registry × Option RegError :=
  match r.Students.lookup studentID with
  | none => (r, some .studentNotFound)
  | some student =>
    let (found, newCourses) := removeCourseLoop (goCourses student) course
    if found then
      (⟨setStudent r.Students studentID { student with Courses := some newCourses }⟩,
       none)
    else
      (r, some .courseNotFound)

/-- `ListStudents` returns the stored students (map iteration order is
unspecified in Go; the embedding fixes insertion order, callers must not
rely on it). -/
def ListStudents (r : Registry) : List Student :=
  r.Students.map Prod.snd

/-- `courseCount[course]++` on an association-list map with zero default:
bump the value at an existing key, or append the key with value 1. -/
def incrCount (m : List (String × Nat)) (course : String) :
    List (String × Nat) :=
  match m.lookup course with
  | some _ => m.map fun p => if p.1 = course then (course, p.2 + 1) else p
  | none => m ++ [(course, 1)]

/-- `CoursesCount`: scan every student's course list, incrementing a
per-course counter. -/
def CoursesCount (r : Registry) : List (String × Nat) :=
  r.Students.foldl (fun m p => (goCourses p.2).foldl incrCount m) []

/-- The course list the registry currently stores for `id`
(empty when the id is absent). -/
def coursesOf (r : Registry) (id : Nat) : List String :=
  match r.Students.lookup id with
  | some s => goCourses s
  | none => []

/-- Every course-list entry of every student, concatenated. -/
def allCourseEntries (r : Registry) : List String :=
  (r.Students.map fun p => goCourses p.2).flatten

/-- Number of distinct students whose course list contains `course`. -/
def studentsEnrolled (r : Registry) (course : String) : Nat :=
  (r.Students.filter fun p => (goCourses p.2).contains course).length

/-- No student's stored course list repeats a course name. -/
def NoDupCourses (r : Registry) : Prop :=
  ∀ p ∈ r.Students, (goCourses p.2).Nodup

instance (r : Registry) : Decidable (NoDupCourses r) :=
  List.decidableBAll _ r.Students

/-- Registry states reachable by any sequence of AddStudent, EnrollCourse
and RemoveCourse calls from the empty registry (a failing call returns the
input registry unchanged, so failing calls are covered too). -/
inductive Reachable : Registry → Prop where
  | base : Reachable NewRegistry
  | add (r : Registry) (s : Student) (h : Reachable r) :
      Reachable (AddStudent r s).1
  | enroll (r : Registry) (id : Nat) (c : String) (h : Reachable r) :
      Reachable (EnrollCourse r id c).1
  | remove (r : Registry) (id : Nat) (c : String) (h : Reachable r) :
      Reachable (RemoveCourse r id c).1

/-- Reachability when every AddStudent call supplies a duplicate-free
initial course list (EnrollCourse and RemoveCourse are unrestricted). -/
inductive ReachableND : Registry → Prop where
  | base : ReachableND NewRegistry
  | add (r : Registry) (s : Student) (h : ReachableND r)
      (hnd : (goCourses s).Nodup) : ReachableND (AddStudent r s).1
  | enroll (r : Registry) (id : Nat) (c : String) (h : ReachableND r) :
      ReachableND (EnrollCourse r id c).1
  | remove (r : Registry) (id : Nat) (c : String) (h : ReachableND r) :
      ReachableND (RemoveCourse r id c).1

/-! ### Helper lemmas about the embedding -/

theorem lookup_mem {l : List (Nat × Student)} {a : Nat} {s : Student}
    (h : l.lookup a = some s) : (a, s) ∈ l := by
  induction l with
  | nil => simp [List.lookup] at h
  | cons p rest ih =>
    obtain ⟨k, v⟩ := p
    by_cases hk : a = k
    · subst hk
      simp [List.lookup] at h
      subst h
      exact List.mem_cons_self _ _
    · have hk' : (a == k) = false := by simp [hk]
      simp [List.lookup, hk'] at h
      exact List.mem_cons_of_mem _ (ih h)

theorem lookup_setStudent_self {l : List (Nat × Student)} {id : Nat}
    {s0 : Student} (s : Student) (h : l.lookup id = some s0) :
    (setStudent l id s).lookup id = some s := by
  induction l with
  | nil => simp [List.lookup] at h
  | cons p rest ih =>
    obtain ⟨k, v⟩ := p
    by_cases hk : k = id
    · subst hk
      have hset : setStudent ((k, v) :: rest) k s = (k, s) :: setStudent rest k s := by
        simp [setStudent]
      rw [hset]
      simp [List.lookup]
    · have hset : setStudent ((k, v) :: rest) id s = (k, v) :: setStudent rest id s := by
        simp [setStudent, hk]
      have hk' : (id == k) = false := by simp [Ne.symm hk]
      have h1 : List.lookup id ((k, v) :: rest) = List.lookup id rest := by
        simp [List.lookup, hk']
      have h2 : List.lookup id ((k, v) :: setStudent rest id s) =
          List.lookup id (setStudent rest id s) := by
        simp [List.lookup, hk']
      rw [h1] at h
      rw [hset, h2]
      exact ih h

theorem mem_setStudent {l : List (Nat × Student)} {id : Nat} {s : Student}
    {p : Nat × Student} (h : p ∈ setStudent l id s) :
    p = (id, s) ∨ p ∈ l := by
  rcases List.mem_map.mp h with ⟨q, hq, heq⟩
  by_cases hk : q.1 = id
  · left
    rw [← heq]
    simp [hk]
  · right
    rw [← heq]
    simpa [hk] using hq

theorem lookup_append_of_none {l1 l2 : List (Nat × Student)} {a : Nat}
    (h : l1.lookup a = none) : (l1 ++ l2).lookup a = l2.lookup a := by
  induction l1 with
  | nil => simp
  | cons p rest ih =>
    obtain ⟨k, v⟩ := p
    by_cases hk : a = k
    · subst hk
      simp [List.lookup] at h
    · have hk' : (a == k) = false := by simp [hk]
      have h1 : List.lookup a ((k, v) :: rest) = List.lookup a rest := by
        simp [List.lookup, hk']
      have h2 : List.lookup a (((k, v) :: rest) ++ l2) =
          List.lookup a (rest ++ l2) := by
        simp [List.lookup, hk']
      rw [h1] at h
      rw [h2]
      exact ih h

theorem lookup_append {α β : Type} [BEq α] (l1 l2 : List (α × β)) (a : α) :
    (l1 ++ l2).lookup a =
      (match l1.lookup a with
       | some v => some v
       | none => l2.lookup a) := by
  induction l1 with
  | nil => simp
  | cons p rest ih =>
    obtain ⟨k, v⟩ := p
    cases hk : a == k
    · simp [List.lookup, hk, ih]
    · simp [List.lookup, hk]

/-- The deferred contribution of a course-list scan to one counter of the
`CoursesCount` map: no occurrence leaves the counter alone, `n`
occurrences add `n`, materializing the key if it was absent. -/
def countStep (o : Option Nat) (n : Nat) : Option Nat :=
  if n = 0 then o else some (o.getD 0 + n)

theorem countStep_comp (o : Option Nat) (n m : Nat) :
    countStep (countStep o n) m = countStep o (n + m) := by
  by_cases hn : n = 0
  · by_cases hm : m = 0 <;> simp [countStep, hn, hm]
  · by_cases hm : m = 0
    · simp [countStep, hn, hm]
    · simp [countStep, hn, hm, Nat.add_assoc]

theorem lookup_map_bump (m : List (String × Nat)) (c c' : String) :
    ((m.map fun p => if p.1 = c then (c, p.2 + 1) else p).lookup c') =
      (m.lookup c').map (fun v => if c' = c then v + 1 else v) := by
  induction m with
  | nil => simp
  | cons p rest ih =>
    obtain ⟨k, v⟩ := p
    by_cases hk : k = c
    · subst hk
      have hmap : (((k, v) :: rest).map fun p => if p.1 = k then (k, p.2 + 1) else p) =
          (k, v + 1) :: (rest.map fun p => if p.1 = k then (k, p.2 + 1) else p) := by
        simp
      rw [hmap]
      by_cases hc : c' = k
      · subst hc
        simp [List.lookup]
      · have hc' : (c' == k) = false := by simp [hc]
        simp [List.lookup, hc', ih, hc]
    · have hmap : (((k, v) :: rest).map fun p => if p.1 = c then (c, p.2 + 1) else p) =
          (k, v) :: (rest.map fun p => if p.1 = c then (c, p.2 + 1) else p) := by
        simp [hk]
      rw [hmap]
      by_cases hc : c' = k
      · subst hc
        simp [List.lookup, hk]
      · have hc' : (c' == k) = false := by simp [hc]
        simp [List.lookup, hc', ih]

theorem incrCount_lookup (m : List (String × Nat)) (c c' : String) :
    (incrCount m c).lookup c' =
      if c' = c then some ((m.lookup c').getD 0 + 1) else m.lookup c' := by
  unfold incrCount
  cases hm : m.lookup c with
  | some v =>
    rw [lookup_map_bump]
    by_cases hc : c' = c
    · subst hc
      simp [hm]
    · simp [hc]
  | none =>
    rw [lookup_append]
    by_cases hc : c' = c
    · subst hc
      simp [hm, List.lookup]
    · have hc' : (c' == c) = false := by simp [hc]
      cases hm' : m.lookup c' <;> simp [hm', hc, List.lookup, hc']

theorem foldl_incrCount_lookup (l : List String) (m : List (String × Nat))
    (c : String) :
    (l.foldl incrCount m).lookup c = countStep (m.lookup c) (l.count c) := by
  induction l generalizing m with
  | nil => simp [countStep]
  | cons a l ih =>
    rw [List.foldl_cons, ih, incrCount_lookup]
    by_cases hc : c = a
    · subst hc
      rw [List.count_cons_self, if_pos rfl]
      calc countStep (some ((m.lookup c).getD 0 + 1)) (l.count c)
          = countStep (countStep (m.lookup c) 1) (l.count c) := by simp [countStep]
        _ = countStep (m.lookup c) (1 + l.count c) := countStep_comp _ _ _
        _ = countStep (m.lookup c) (l.count c + 1) := by rw [Nat.add_comm]
    · rw [List.count_cons_of_ne hc, if_neg hc]

theorem coursesCount_lookup (r : Registry) (c : String) :
    (CoursesCount r).lookup c = countStep none ((allCourseEntries r).count c) := by
  suffices h : ∀ (students : List (Nat × Student)) (m : List (String × Nat)),
      ((students.foldl (fun m p => (goCourses p.2).foldl incrCount m) m).lookup c) =
        countStep (m.lookup c) (((students.map fun p => goCourses p.2).flatten).count c) by
    simpa [CoursesCount, allCourseEntries] using h r.Students []
  intro students
  induction students with
  | nil => intro m; simp [countStep]
  | cons p rest ih =>
    intro m
    rw [List.foldl_cons, ih, foldl_incrCount_lookup, List.map_cons,
      List.flatten_cons, List.count_append]
    exact countStep_comp _ _ _

theorem count_flatten_nodup (students : List (Nat × Student)) (c : String)
    (h : ∀ p ∈ students, (goCourses p.2).Nodup) :
    ((students.map fun p => goCourses p.2).flatten).count c =
      (students.filter fun p => (goCourses p.2).contains c).length := by
  induction students with
  | nil => simp
  | cons p rest ih =>
    rw [List.map_cons, List.flatten_cons, List.count_append, List.filter_cons]
    have hnd : (goCourses p.2).Nodup := h p (List.mem_cons_self _ _)
    have hrest : ∀ q ∈ rest, (goCourses q.2).Nodup :=
      fun q hq => h q (List.mem_cons_of_mem _ hq)
    rw [ih hrest]
    by_cases hm : c ∈ goCourses p.2
    · have h1 : (goCourses p.2).count c = 1 := List.count_eq_one_of_mem hnd hm
      have h2 : (goCourses p.2).contains c = true := by simpa using hm
      rw [h1, h2]
      simp [Nat.add_comm]
    · have h1 : (goCourses p.2).count c = 0 := List.count_eq_zero.mpr hm
      have h2 : (goCourses p.2).contains c = false := by simpa using hm
      rw [h1, h2]
      simp

theorem removeCourseLoop_fst (l : List String) (c : String) :
    (removeCourseLoop l c).1 = true ↔ c ∈ l := by
  induction l with
  | nil => simp [removeCourseLoop]
  | cons a rest ih =>
    by_cases h : a = c
    · subst h
      simp [removeCourseLoop]
    · simp [removeCourseLoop, h, ih, Ne.symm h]

theorem removeCourseLoop_snd (l : List String) (c : String) :
    (removeCourseLoop l c).2 = l.filter (fun x => x ≠ c) := by
  induction l with
  | nil => simp [removeCourseLoop]
  | cons a rest ih =>
    by_cases h : a = c <;> simp [removeCourseLoop, h, ih]

theorem filter_ne_length (l : List String) (c : String) :
    (l.filter (fun x => x ≠ c)).length + l.count c = l.length := by
  induction l with
  | nil => simp
  | cons a rest ih =>
    by_cases h : a = c
    · subst h
      simp [List.filter_cons, List.count_cons] at ih ⊢
      omega
    · simp [List.filter_cons, List.count_cons, h] at ih ⊢
      omega

theorem AddStudent_ok {r : Registry} {s : Student}
    (h1 : r.Students.lookup s.ID = none) (h2 : s.Name ≠ "") :
    AddStudent r s =
      (⟨r.Students ++ [(s.ID, { s with Courses := some (goCourses s) })]⟩, none) := by
  simp [AddStudent, h1, h2]

theorem EnrollCourse_ok {r : Registry} {id : Nat} {c : String} {student : Student}
    (hs : r.Students.lookup id = some student) (hc : c ≠ "")
    (hn : c ∉ goCourses student) :
    EnrollCourse r id c =
      (⟨setStudent r.Students id
          { student with Courses := some (goCourses student ++ [c]) }⟩, none) := by
  simp [EnrollCourse, hs, hc, hn]

theorem RemoveCourse_ok {r : Registry} {id : Nat} {c : String} {student : Student}
    (hs : r.Students.lookup id = some student) (hm : c ∈ goCourses student) :
    RemoveCourse r id c =
      (⟨setStudent r.Students id
          { student with
            Courses := some ((goCourses student).filter (fun x => x ≠ c)) }⟩,
       none) := by
  have hp : removeCourseLoop (goCourses student) c =
      (true, (goCourses student).filter (fun x => x ≠ c)) :=
    Prod.ext ((removeCourseLoop_fst _ _).mpr hm) (removeCourseLoop_snd _ _)
  simp [RemoveCourse, hs, hp]

theorem coursesOf_eq {r : Registry} {id : Nat} {s : Student}
    (h : r.Students.lookup id = some s) : coursesOf r id = goCourses s := by
  unfold coursesOf
  rw [h]

theorem AddStudent_fst_cases (r : Registry) (s : Student) :
    (AddStudent r s).1 = r ∨
    (AddStudent r s).1.Students =
      r.Students ++ [(s.ID, { s with Courses := some (goCourses s) })] := by
  by_cases h1 : (r.Students.lookup s.ID).isSome
  · left; simp [AddStudent, h1]
  · by_cases h2 : s.Name = ""
    · left; simp [AddStudent, h1, h2]
    · right; simp [AddStudent, h1, h2]

theorem EnrollCourse_fst_cases (r : Registry) (id : Nat) (c : String) :
    (EnrollCourse r id c).1 = r ∨
    ∃ student, r.Students.lookup id = some student ∧ c ∉ goCourses student ∧
      (EnrollCourse r id c).1.Students =
        setStudent r.Students id
          { student with Courses := some (goCourses student ++ [c]) } := by
  cases hs : r.Students.lookup id with
  | none => left; simp [EnrollCourse, hs]
  | some student =>
    by_cases hc : c = ""
    · left; simp [EnrollCourse, hs, hc]
    · by_cases hcon : c ∈ goCourses student
      · left; simp [EnrollCourse, hs, hc, hcon]
      · right
        refine ⟨student, rfl, hcon, ?_⟩
        simp [EnrollCourse, hs, hc, hcon]

theorem RemoveCourse_fst_cases (r : Registry) (id : Nat) (c : String) :
    (RemoveCourse r id c).1 = r ∨
    ∃ student, r.Students.lookup id = some student ∧
      (RemoveCourse r id c).1.Students =
        setStudent r.Students id
          { student with
            Courses := some ((goCourses student).filter (fun x => x ≠ c)) } := by
  cases hs : r.Students.lookup id with
  | none => left; simp [RemoveCourse, hs]
  | some student =>
    have hsnd := removeCourseLoop_snd (goCourses student) c
    cases hf : (removeCourseLoop (goCourses student) c).1 with
    | false =>
      left
      have hp : removeCourseLoop (goCourses student) c =
          (false, (goCourses student).filter (fun x => x ≠ c)) := Prod.ext hf hsnd
      simp [RemoveCourse, hs, hp]
    | true =>
      right
      have hp : removeCourseLoop (goCourses student) c =
          (true, (goCourses student).filter (fun x => x ≠ c)) := Prod.ext hf hsnd
      exact ⟨student, rfl, by simp [RemoveCourse, hs, hp]⟩

theorem noDup_of_mem_setStudent {l : List (Nat × Student)} {id : Nat} {s : Student}
    (h : ∀ p ∈ l, (goCourses p.2).Nodup) (hs : (goCourses s).Nodup) :
    ∀ p ∈ setStudent l id s, (goCourses p.2).Nodup := by
  intro p hp
  rcases mem_setStudent hp with h1 | h1
  · rw [h1]
    exact hs
  · exact h p h1

/-! ### The claims -/

/-- Claim C3, counterexample: the claim says an empty name fails with
`EmptyName` even when the student's ID is already present, but on a
registry already holding ID 1, AddStudent with ID 1 and an empty name
fails with `DuplicateID`, not `EmptyName` (the code checks the ID first). -/
theorem addStudent_emptyName_cex :
    (AddStudent ⟨[(1, ⟨1, "A", some []⟩)]⟩ ⟨1, "", none⟩).2 =
      some RegError.duplicateID ∧
    some RegError.duplicateID ≠ some RegError.emptyName :=
  ⟨rfl, by decide⟩

/-- Claim C3, amended: for every registry and student whose ID is not yet
present, if the student's name is empty then AddStudent fails with
`EmptyName` and leaves the registry unchanged (when the ID is already
present, `DuplicateID` takes precedence). -/
theorem addStudent_emptyName (r : Registry) (s : Student)
    (h1 : r.Students.lookup s.ID = none) (h2 : s.Name = "") :
    AddStudent r s = (r, some RegError.emptyName) := by
  simp [AddStudent, h1, h2]

theorem addStudent_emptyName_witness :
    AddStudent NewRegistry ⟨7, "", none⟩ = (NewRegistry, some RegError.emptyName) :=
  addStudent_emptyName NewRegistry ⟨7, "", none⟩ rfl rfl

/-- Claim C5: whenever AddStudent, EnrollCourse or RemoveCourse returns an
error (a `some` second component), the registry it returns is exactly the
input registry: no failure mutates any state. -/
theorem failure_preserves_registry (r : Registry) (s : Student) (id : Nat)
    (c : String) :
    ((AddStudent r s).2.isSome → (AddStudent r s).1 = r) ∧
    ((EnrollCourse r id c).2.isSome → (EnrollCourse r id c).1 = r) ∧
    ((RemoveCourse r id c).2.isSome → (RemoveCourse r id c).1 = r) := by
  refine ⟨fun h => ?_, fun h => ?_, fun h => ?_⟩
  · by_cases h1 : (r.Students.lookup s.ID).isSome
    · simp [AddStudent, h1]
    · by_cases h2 : s.Name = ""
      · simp [AddStudent, h1, h2]
      · simp [AddStudent, h1, h2] at h
  · cases hs : r.Students.lookup id with
    | none => simp [EnrollCourse, hs]
    | some student =>
      by_cases hc : c = ""
      · simp [EnrollCourse, hs, hc]
      · by_cases hcon : c ∈ goCourses student
        · simp [EnrollCourse, hs, hc, hcon]
        · simp [EnrollCourse, hs, hc, hcon] at h
  · cases hs : r.Students.lookup id with
    | none => simp [RemoveCourse, hs]
    | some student =>
      have hsnd := removeCourseLoop_snd (goCourses student) c
      cases hf : (removeCourseLoop (goCourses student) c).1 with
      | false =>
        have hp : removeCourseLoop (goCourses student) c =
            (false, (goCourses student).filter (fun x => x ≠ c)) := Prod.ext hf hsnd
        simp [RemoveCourse, hs, hp]
      | true =>
        have hp : removeCourseLoop (goCourses student) c =
            (true, (goCourses student).filter (fun x => x ≠ c)) := Prod.ext hf hsnd
        simp [RemoveCourse, hs, hp] at h

theorem failure_preserves_registry_witness :
    (AddStudent ⟨[(1, ⟨1, "A", some ["Go"]⟩)]⟩ ⟨1, "B", none⟩).1 =
      ⟨[(1, ⟨1, "A", some ["Go"]⟩)]⟩ ∧
    (EnrollCourse ⟨[(1, ⟨1, "A", some ["Go"]⟩)]⟩ 2 "Go").1 =
      ⟨[(1, ⟨1, "A", some ["Go"]⟩)]⟩ ∧
    (RemoveCourse ⟨[(1, ⟨1, "A", some ["Go"]⟩)]⟩ 1 "DB").1 =
      ⟨[(1, ⟨1, "A", some ["Go"]⟩)]⟩ :=
  ⟨(failure_preserves_registry ⟨[(1, ⟨1, "A", some ["Go"]⟩)]⟩ ⟨1, "B", none⟩ 2 "Go").1
      (by decide),
   (failure_preserves_registry ⟨[(1, ⟨1, "A", some ["Go"]⟩)]⟩ ⟨1, "B", none⟩ 2 "Go").2.1
      (by decide),
   (failure_preserves_registry ⟨[(1, ⟨1, "A", some ["Go"]⟩)]⟩ ⟨1, "B", none⟩ 1 "DB").2.2
      (by decide)⟩

/-- Claim C7: adding a student whose ID is already stored fails with
`DuplicateID`, and the student stored under that ID is unchanged. -/
theorem addStudent_duplicateID (r : Registry) (s student : Student)
    (h : r.Students.lookup s.ID = some student) :
    (AddStudent r s).2 = some RegError.duplicateID ∧
    ((AddStudent r s).1).Students.lookup s.ID = some student := by
  have hh : (r.Students.lookup s.ID).isSome := by rw [h]; rfl
  constructor <;> simp [AddStudent, hh, h]

theorem addStudent_duplicateID_witness :
    (AddStudent ⟨[(1, ⟨1, "A", some ["Go"]⟩)]⟩ ⟨1, "B", none⟩).2 =
      some RegError.duplicateID ∧
    ((AddStudent ⟨[(1, ⟨1, "A", some ["Go"]⟩)]⟩ ⟨1, "B", none⟩).1).Students.lookup 1 =
      some ⟨1, "A", some ["Go"]⟩ :=
  addStudent_duplicateID ⟨[(1, ⟨1, "A", some ["Go"]⟩)]⟩ ⟨1, "B", none⟩
    ⟨1, "A", some ["Go"]⟩ rfl

/-- Claim C9: when the student ID is absent, EnrollCourse fails with
`StudentNotFound` whatever the course name is — in particular for the
empty course name, since the existence check runs first. -/
theorem enrollCourse_studentNotFound (r : Registry) (id : Nat) (c : String)
    (h : r.Students.lookup id = none) :
    EnrollCourse r id c = (r, some RegError.studentNotFound) := by
  simp [EnrollCourse, h]

theorem enrollCourse_studentNotFound_witness :
    EnrollCourse NewRegistry 9 "" = (NewRegistry, some RegError.studentNotFound) :=
  enrollCourse_studentNotFound NewRegistry 9 "" rfl

/-- Claim C10: AddStudent with a fresh ID and non-empty name succeeds and
stores the supplied course list verbatim (only a nil list is normalized to
empty), with no validation of its contents. -/
theorem addStudent_stores_verbatim (r : Registry) (s : Student)
    (h1 : r.Students.lookup s.ID = none) (h2 : s.Name ≠ "") :
    (AddStudent r s).2 = none ∧
    ((AddStudent r s).1).Students.lookup s.ID =
      some { s with Courses := some (s.Courses.getD []) } := by
  have hok := AddStudent_ok h1 h2
  constructor
  · rw [hok]
  · rw [hok]
    show (r.Students ++ [(s.ID, _)]).lookup s.ID = _
    rw [lookup_append, h1]
    simp [List.lookup, goCourses]

/-- Witness for C10 at a course list that holds a duplicate entry and an
empty course name: AddStudent accepts and stores it unchanged. -/
theorem addStudent_stores_verbatim_witness :
    (AddStudent NewRegistry ⟨3, "C", some ["Go", "Go", ""]⟩).2 = none ∧
    ((AddStudent NewRegistry ⟨3, "C", some ["Go", "Go", ""]⟩).1).Students.lookup 3 =
      some ⟨3, "C", some ["Go", "Go", ""]⟩ :=
  addStudent_stores_verbatim NewRegistry ⟨3, "C", some ["Go", "Go", ""]⟩ rfl (by decide)

/-- Claim C1, counterexample: the no-duplicate invariant fails on a
reachable state, because AddStudent performs no validation of the
caller-supplied initial course list: adding a student with initial list
["Go", "Go"] from the empty registry succeeds and stores the duplicate. -/
theorem noDupCourses_reachable_cex :
    Reachable (AddStudent NewRegistry ⟨1, "A", some ["Go", "Go"]⟩).1 ∧
    ¬ NoDupCourses (AddStudent NewRegistry ⟨1, "A", some ["Go", "Go"]⟩).1 :=
  ⟨Reachable.add _ _ Reachable.base, by decide⟩

/-- Claim C1, amended: EnrollCourse and RemoveCourse preserve the
no-duplicate invariant, and AddStudent preserves it exactly when the
caller-supplied initial course list is itself duplicate-free; hence every
state reachable using only duplicate-free initial course lists satisfies
the invariant. -/
theorem reachableND_noDupCourses (r : Registry) (h : ReachableND r) :
    NoDupCourses r := by
  induction h with
  | base =>
    intro p hp
    simp [NewRegistry] at hp
  | add r s _ hnd ih =>
    rcases AddStudent_fst_cases r s with hcase | hcase
    · rw [hcase]; exact ih
    · intro p hp
      rw [hcase] at hp
      rcases List.mem_append.mp hp with h1 | h1
      · exact ih p h1
      · have h2 : p = (s.ID, { s with Courses := some (goCourses s) }) := by
          simpa using h1
        rw [h2]
        exact hnd
  | enroll r id c _ ih =>
    rcases EnrollCourse_fst_cases r id c with hcase | ⟨student, hs, hnm, hcase⟩
    · rw [hcase]; exact ih
    · intro p hp
      rw [hcase] at hp
      have hnd : (goCourses student).Nodup := ih _ (lookup_mem hs)
      rcases mem_setStudent hp with h1 | h1
      · rw [h1]
        show (goCourses student ++ [c]).Nodup
        simp [List.nodup_append, hnd, hnm]
      · exact ih p h1
  | remove r id c _ ih =>
    rcases RemoveCourse_fst_cases r id c with hcase | ⟨student, hs, hcase⟩
    · rw [hcase]; exact ih
    · intro p hp
      rw [hcase] at hp
      have hnd : (goCourses student).Nodup := ih _ (lookup_mem hs)
      rcases mem_setStudent hp with h1 | h1
      · rw [h1]
        show ((goCourses student).filter (fun x => x ≠ c)).Nodup
        exact hnd.filter _
      · exact ih p h1

theorem reachableND_noDupCourses_witness :
    NoDupCourses (AddStudent NewRegistry ⟨1, "A", some ["Go"]⟩).1 :=
  reachableND_noDupCourses _ (ReachableND.add _ _ ReachableND.base (by decide))

/-- Claim C2, counterexample: on a registry whose student 1 has course
list ["Go", "Go"] (a reachable state), a successful RemoveCourse(1, "Go")
leaves the empty list — both matching entries are removed — whereas the
claim (remove exactly the first match) predicts ["Go"]. -/
theorem removeCourse_first_match_cex :
    (RemoveCourse ⟨[(1, ⟨1, "A", some ["Go", "Go"]⟩)]⟩ 1 "Go").2 = none ∧
    coursesOf (RemoveCourse ⟨[(1, ⟨1, "A", some ["Go", "Go"]⟩)]⟩ 1 "Go").1 1 = [] ∧
    ([] : List String) ≠ ["Go"] :=
  ⟨rfl, rfl, by decide⟩

/-- Claim C2, amended: a successful RemoveCourse removes every entry equal
to the course (the linear scan skips each match), keeps the non-matching
entries in their original relative order (the result is exactly the
filtered old list), and shrinks the list by the old number of matches —
so it removes exactly one entry precisely when the course occurred once. -/
theorem removeCourse_filters_all (r : Registry) (id : Nat) (c : String)
    (student : Student) (hs : r.Students.lookup id = some student)
    (hm : c ∈ goCourses student) :
    (RemoveCourse r id c).2 = none ∧
    coursesOf (RemoveCourse r id c).1 id =
      (goCourses student).filter (fun x => x ≠ c) ∧
    (coursesOf (RemoveCourse r id c).1 id).length + (goCourses student).count c =
      (goCourses student).length := by
  have hok := RemoveCourse_ok hs hm
  have hl := lookup_setStudent_self
    { student with Courses := some ((goCourses student).filter (fun x => x ≠ c)) } hs
  have h2 : coursesOf (RemoveCourse r id c).1 id =
      (goCourses student).filter (fun x => x ≠ c) := by
    rw [hok]
    simp [goCourses] at hl
    simp [coursesOf, goCourses, hl]
  exact ⟨by rw [hok], h2, by rw [h2]; exact filter_ne_length _ _⟩

theorem removeCourse_filters_all_witness :
    (RemoveCourse ⟨[(5, ⟨5, "B", some ["Go", "DB"]⟩)]⟩ 5 "Go").2 = none ∧
    coursesOf (RemoveCourse ⟨[(5, ⟨5, "B", some ["Go", "DB"]⟩)]⟩ 5 "Go").1 5 =
      (goCourses ⟨5, "B", some ["Go", "DB"]⟩).filter (fun x => x ≠ "Go") ∧
    (coursesOf (RemoveCourse ⟨[(5, ⟨5, "B", some ["Go", "DB"]⟩)]⟩ 5 "Go").1 5).length +
        (goCourses ⟨5, "B", some ["Go", "DB"]⟩).count "Go" =
      (goCourses ⟨5, "B", some ["Go", "DB"]⟩).length :=
  removeCourse_filters_all ⟨[(5, ⟨5, "B", some ["Go", "DB"]⟩)]⟩ 5 "Go"
    ⟨5, "B", some ["Go", "DB"]⟩ rfl (by decide)

/-- Claim C4, counterexample: on a reachable registry holding one student
whose course list is ["Go", "Go"], CoursesCount maps "Go" to 2, its number
of occurrences, while only 1 distinct student contains "Go" — the count is
per entry, not per distinct student. -/
theorem coursesCount_distinct_cex :
    Reachable (AddStudent NewRegistry ⟨1, "A", some ["Go", "Go"]⟩).1 ∧
    (CoursesCount (AddStudent NewRegistry ⟨1, "A", some ["Go", "Go"]⟩).1).lookup "Go" =
      some 2 ∧
    studentsEnrolled (AddStudent NewRegistry ⟨1, "A", some ["Go", "Go"]⟩).1 "Go" = 1 ∧
    (2 : Nat) ≠ 1 :=
  ⟨Reachable.add _ _ Reachable.base, rfl, rfl, by decide⟩

/-- Claim C4, amended: CoursesCount has a course as a key exactly when
some student's course list contains an entry for it (never a key with
count 0), and the key's value is the total number of occurrences of the
course across all students' lists — which equals the number of distinct
enrolled students whenever no stored course list has duplicates. -/
theorem coursesCount_spec (r : Registry) (c : String) :
    ((CoursesCount r).lookup c =
      if (allCourseEntries r).count c = 0 then none
      else some ((allCourseEntries r).count c)) ∧
    (NoDupCourses r → (allCourseEntries r).count c = studentsEnrolled r c) := by
  constructor
  · rw [coursesCount_lookup]
    by_cases h0 : (allCourseEntries r).count c = 0 <;> simp [countStep, h0]
  · intro hnd
    unfold allCourseEntries studentsEnrolled
    exact count_flatten_nodup r.Students c hnd

theorem coursesCount_spec_witness :
    ((CoursesCount ⟨[(1, ⟨1, "A", some ["Go"]⟩), (2, ⟨2, "B", some ["Go", "DB"]⟩)]⟩).lookup "Go" =
      if (allCourseEntries ⟨[(1, ⟨1, "A", some ["Go"]⟩), (2, ⟨2, "B", some ["Go", "DB"]⟩)]⟩).count "Go" = 0
      then none
      else some ((allCourseEntries ⟨[(1, ⟨1, "A", some ["Go"]⟩), (2, ⟨2, "B", some ["Go", "DB"]⟩)]⟩).count "Go")) ∧
    (allCourseEntries ⟨[(1, ⟨1, "A", some ["Go"]⟩), (2, ⟨2, "B", some ["Go", "DB"]⟩)]⟩).count "Go" =
      studentsEnrolled ⟨[(1, ⟨1, "A", some ["Go"]⟩), (2, ⟨2, "B", some ["Go", "DB"]⟩)]⟩ "Go" :=
  ⟨(coursesCount_spec ⟨[(1, ⟨1, "A", some ["Go"]⟩), (2, ⟨2, "B", some ["Go", "DB"]⟩)]⟩ "Go").1,
   (coursesCount_spec ⟨[(1, ⟨1, "A", some ["Go"]⟩), (2, ⟨2, "B", some ["Go", "DB"]⟩)]⟩ "Go").2
     (by decide)⟩

/-- Claim C8: when the student exists, the course name is non-empty and
the student is not yet enrolled in it, EnrollCourse succeeds and the new
stored course list is the old one with the course appended at the end. -/
theorem enrollCourse_appends (r : Registry) (id : Nat) (c : String)
    (student : Student) (hs : r.Students.lookup id = some student)
    (hc : c ≠ "") (hn : c ∉ goCourses student) :
    (EnrollCourse r id c).2 = none ∧
    coursesOf (EnrollCourse r id c).1 id = coursesOf r id ++ [c] := by
  have hok := EnrollCourse_ok hs hc hn
  have hl1 : ((EnrollCourse r id c).1).Students.lookup id =
      some { student with Courses := some (goCourses student ++ [c]) } := by
    rw [hok]
    exact lookup_setStudent_self _ hs
  refine ⟨by rw [hok], ?_⟩
  rw [coursesOf_eq hl1, coursesOf_eq hs]
  rfl

theorem enrollCourse_appends_witness :
    (EnrollCourse ⟨[(1, ⟨1, "A", some ["Go"]⟩)]⟩ 1 "DB").2 = none ∧
    coursesOf (EnrollCourse ⟨[(1, ⟨1, "A", some ["Go"]⟩)]⟩ 1 "DB").1 1 =
      coursesOf ⟨[(1, ⟨1, "A", some ["Go"]⟩)]⟩ 1 ++ ["DB"] :=
  enrollCourse_appends ⟨[(1, ⟨1, "A", some ["Go"]⟩)]⟩ 1 "DB" ⟨1, "A", some ["Go"]⟩
    rfl (by decide) (by decide)

/-- Claim C6: a successful EnrollCourse followed by RemoveCourse of the
same course on the same student succeeds and restores the student's
stored course list exactly (same elements, same order), because a
successful enroll guarantees the course was absent before. -/
theorem enroll_remove_roundTrip (r : Registry) (id : Nat) (c : String)
    (h : (EnrollCourse r id c).2 = none) :
    (RemoveCourse (EnrollCourse r id c).1 id c).2 = none ∧
    coursesOf (RemoveCourse (EnrollCourse r id c).1 id c).1 id = coursesOf r id := by
  cases hs : r.Students.lookup id with
  | none => simp [EnrollCourse, hs] at h
  | some student =>
    by_cases hc : c = ""
    · simp [EnrollCourse, hs, hc] at h
    · by_cases hcon : c ∈ goCourses student
      · simp [EnrollCourse, hs, hc, hcon] at h
      · have hok := EnrollCourse_ok hs hc hcon
        have hl1 : ((EnrollCourse r id c).1).Students.lookup id =
            some { student with Courses := some (goCourses student ++ [c]) } := by
          rw [hok]
          exact lookup_setStudent_self _ hs
        have hm : c ∈ goCourses { student with Courses := some (goCourses student ++ [c]) } := by
          show c ∈ goCourses student ++ [c]
          simp
        have hrok := RemoveCourse_ok hl1 hm
        have hfil : (goCourses student ++ [c]).filter (fun x => x ≠ c) =
            goCourses student := by
          rw [List.filter_append]
          have h1 : (goCourses student).filter (fun x => x ≠ c) = goCourses student := by
            apply List.filter_eq_self.mpr
            intro a ha
            simpa using fun he : a = c => hcon (he ▸ ha)
          have h2 : ([c] : List String).filter (fun x => x ≠ c) = [] := by simp
          rw [h1, h2, List.append_nil]
        have hl2 : ((RemoveCourse (EnrollCourse r id c).1 id c).1).Students.lookup id =
            some { student with
              Courses := some ((goCourses student ++ [c]).filter (fun x => x ≠ c)) } := by
          rw [hrok]
          exact lookup_setStudent_self _ hl1
        refine ⟨by rw [hrok], ?_⟩
        rw [coursesOf_eq hl2, coursesOf_eq hs]
        exact hfil

theorem enroll_remove_roundTrip_witness :
    (RemoveCourse (EnrollCourse ⟨[(1, ⟨1, "A", some ["Go"]⟩)]⟩ 1 "DB").1 1 "DB").2 = none ∧
    coursesOf (RemoveCourse (EnrollCourse ⟨[(1, ⟨1, "A", some ["Go"]⟩)]⟩ 1 "DB").1 1 "DB").1 1 =
      coursesOf ⟨[(1, ⟨1, "A", some ["Go"]⟩)]⟩ 1 :=
  enroll_remove_roundTrip ⟨[(1, ⟨1, "A", some ["Go"]⟩)]⟩ 1 "DB" rfl

end CourseRegistry
